import Mathlib

/-!
Verification development for the build_plan_estimator repository.

The embedding models `src/engine/pdf_parser.py` and the orchestration in
`src/ui/app.py`.  Python floats are modelled as exact rationals, numpy
`uint8` pixel values as natural numbers, Python `int` as `ℤ`/`ℕ`, and
raised exceptions as `Except` values.  The OpenCV primitives invoked by
`detect_rooms` (colour conversion, Gaussian blur, adaptive threshold,
morphology, contour extraction) are not part of the repository; they are
modelled here from their documented semantics: BT.601 fixed-point
grayscale weights, the hard-coded binomial 5×5 kernel OpenCV uses for
`GaussianBlur(ksize=5, sigma=0)`, mean adaptive threshold with block
size 25 and offset 5, min/max morphology with a 5×5 all-ones element,
and external contours as connected components of the foreground.
-/

namespace BuildPlan

/-- Round-half-to-even on rationals, the rounding mode of Python's
built-in `round`. -/
def rhe (q : ℚ) : ℤ :=
  let f := ⌊q⌋
  if q - f < 1/2 then f
  else if 1/2 < q - f then f + 1
  else if 2 ∣ f then f else f + 1

/-- Python's `round(x, 2)`: round to two decimal places, ties to even. -/
def round2 (q : ℚ) : ℚ := (rhe (q * 100) : ℚ) / 100

/-- A rational that carries at most two decimal places. -/
def TwoDecimal (q : ℚ) : Prop := ∃ n : ℤ, q = (n : ℚ) / 100

/-- Module constant `PIXEL_TO_FEET = 0.1`. -/
def PIXEL_TO_FEET : ℚ := 1/10

/-- Module constant `WALL_HEIGHT_FT = 8.0`. -/
def WALL_HEIGHT_FT : ℚ := 8

/-- Module constant `STUD_SPACING_FT = 16.0 / 12.0`. -/
def STUD_SPACING_FT : ℚ := 16/12

/-- The `RoomEstimate` dataclass. -/
structure RoomEstimate where
  rect : ℕ × ℕ × ℕ × ℕ
  flooring_sqft : ℚ
  drywall_sqft : ℚ
  studs : ℤ
deriving DecidableEq, Repr

/-- Body of the estimate-construction loop of `detect_rooms`
(`pdf_parser.py` lines 152-168), applied to one bounding box. -/
def mkEstimate (b : ℕ × ℕ × ℕ × ℕ) : RoomEstimate :=
  let x := b.1
  let y := b.2.1
  let w := b.2.2.1
  let h := b.2.2.2
  let width_ft : ℚ := (w : ℚ) * PIXEL_TO_FEET
  let height_ft : ℚ := (h : ℚ) * PIXEL_TO_FEET
  let area_sqft : ℚ := width_ft * height_ft
  let perimeter_ft : ℚ := 2 * (width_ft + height_ft)
  let drywall_sqft : ℚ := perimeter_ft * WALL_HEIGHT_FT
  let studs_count : ℤ := max 1 ⌈perimeter_ft / STUD_SPACING_FT⌉
  { rect := (x, y, w, h)
    flooring_sqft := round2 area_sqft
    drywall_sqft := round2 drywall_sqft
    studs := studs_count }

/-- A contour is a list of pixel points `(x, y)`. -/
def Contour : Type := List (ℕ × ℕ)

instance : DecidableEq Contour := inferInstanceAs (DecidableEq (List (ℕ × ℕ)))

/-- `cv2.boundingRect`: smallest axis-aligned rectangle `(x, y, w, h)`
enclosing the points of a contour. -/
def boundingRect : Contour → ℕ × ℕ × ℕ × ℕ
  | [] => (0, 0, 0, 0)
  | p :: ps =>
    let xmin := (ps.map Prod.fst).foldl min p.1
    let ymin := (ps.map Prod.snd).foldl min p.2
    let xmax := (ps.map Prod.fst).foldl max p.1
    let ymax := (ps.map Prod.snd).foldl max p.2
    (xmin, ymin, xmax + 1 - xmin, ymax + 1 - ymin)

/-- Loop-body predicate of `_filter_contours` (`pdf_parser.py` lines
104-113): a contour is appended exactly when neither `continue` fires. -/
def keep_contour (width height : ℕ) (c : Contour) : Bool :=
  let w := (boundingRect c).2.2.1
  let h := (boundingRect c).2.2.2
  let area : ℚ := (w : ℚ) * (h : ℚ)
  let min_area : ℚ := max ((width : ℚ) * (height : ℚ) * (1/2000)) 2000
  !(decide (area < min_area)) &&
    !(decide ((width : ℚ) * (19/20) ≤ (w : ℚ) ∧ (height : ℚ) * (19/20) ≤ (h : ℚ)))

/-- `_filter_contours` (`pdf_parser.py` lines 99-114). -/
def filter_contours (contours : List Contour) (width height : ℕ) :
    List Contour :=
  contours.filter (keep_contour width height)

example : boundingRect [(0,0),(99,49)] = (0, 0, 100, 50) := by decide

example : keep_contour 1000 1000 [(0,0),(99,49)] = true := by
  have hbr : boundingRect [(0,0),(99,49)] = (0, 0, 100, 50) := by decide
  simp only [keep_contour, hbr, Bool.and_eq_true, Bool.not_eq_true',
    decide_eq_false_iff_not, not_lt, not_and, not_le]
  norm_num

example : keep_contour 1000 1000 [(0,0),(959,959)] = false := by
  have hbr : boundingRect [(0,0),(959,959)] = (0, 0, 960, 960) := by decide
  simp only [keep_contour, hbr, Bool.and_eq_false_iff, Bool.not_eq_false',
    decide_eq_true_eq]
  norm_num

example : (mkEstimate (0, 0, 100, 50)).flooring_sqft = 50 := by
  simp only [mkEstimate, round2, rhe, PIXEL_TO_FEET]
  norm_num

/-- A numpy `uint8` array: a shape together with flat row-major data. -/
structure Arr where
  shape : List ℕ
  data : ℕ → ℕ

/-- `a.shape[i]` (0 when out of range). -/
def dim (a : Arr) (i : ℕ) : ℕ := a.shape.getD i 0

/-- Element `a[i, j, k]` of a 3-dimensional array. -/
def pixAt (a : Arr) (i j k : ℕ) : ℕ :=
  a.data (i * (dim a 1 * dim a 2) + j * dim a 2 + k)

/-- The shape test of `detect_rooms` (`pdf_parser.py` line 125):
3-dimensional with 3 or 4 channels. -/
def ValidShape (a : Arr) : Prop :=
  a.shape.length = 3 ∧ (a.shape.getD 2 0 = 3 ∨ a.shape.getD 2 0 = 4)

instance (a : Arr) : Decidable (ValidShape a) :=
  inferInstanceAs (Decidable (_ ∧ (_ ∨ _)))

/-- A single-channel image. -/
structure GrayImg where
  h : ℕ
  w : ℕ
  pix : ℕ → ℕ → ℕ

/-- `cv2.cvtColor` to BGR and then to gray (`pdf_parser.py` lines
128-133), modelled with OpenCV's fixed-point BT.601 weights
`(R*4899 + G*9617 + B*1868 + 8192) >> 14`; the BGR reordering cancels
out, so the weights act directly on the RGB(A) channels. -/
def grayOfArr (a : Arr) : GrayImg :=
  { h := dim a 0
    w := dim a 1
    pix := fun i j =>
      (4899 * pixAt a i j 0 + 9617 * pixAt a i j 1 + 1868 * pixAt a i j 2
        + 8192) / 16384 }

/-- OpenCV border reflection without repeating the edge pixel
(`BORDER_REFLECT_101`), clamped so the result is always in range. -/
def reflect101 (n : ℕ) (t : ℤ) : ℤ :=
  if t < 0 then -t else if (n : ℤ) ≤ t then 2 * ((n : ℤ) - 1) - t else t

/-- Clamp an index into `[0, n-1]` (`BORDER_REPLICATE`). -/
def clampIdx (n : ℕ) (t : ℤ) : ℕ := (max 0 (min ((n : ℤ) - 1) t)).toNat

/-- Border handling of `cv2.GaussianBlur` (reflect-101, clamped). -/
def borderReflect (n : ℕ) (t : ℤ) : ℕ := clampIdx n (reflect101 n t)

/-- The binomial coefficients `[1, 4, 6, 4, 1]`: OpenCV's hard-coded
kernel for `GaussianBlur` with `ksize = 5` and `sigma = 0`, scaled
by 16. -/
def kcoef : ℕ → ℕ
  | 0 => 1
  | 1 => 4
  | 2 => 6
  | 3 => 4
  | _ => 1

/-- Weighted 5×5 convolution sum (kernel weights sum to 256). -/
def convSum5 (g : GrayImg) (i j : ℕ) : ℕ :=
  ((List.range 5).map (fun (di : ℕ) =>
    ((List.range 5).map (fun (dj : ℕ) =>
      kcoef di * kcoef dj *
        g.pix (borderReflect g.h ((i : ℤ) + (di : ℤ) - 2))
              (borderReflect g.w ((j : ℤ) + (dj : ℤ) - 2)))).sum)).sum

/-- `cv2.GaussianBlur(gray, (5, 5), 0)` (`pdf_parser.py` line 134),
with round-to-nearest on the normalized sum. -/
def gaussianBlur5 (g : GrayImg) : GrayImg :=
  { h := g.h, w := g.w, pix := fun i j => (convSum5 g i j + 128) / 256 }

/-- Unweighted 25×25 neighbourhood sum with replicated border, used by
the mean adaptive threshold. -/
def boxSum25 (g : GrayImg) (i j : ℕ) : ℕ :=
  ((List.range 25).map (fun (di : ℕ) =>
    ((List.range 25).map (fun (dj : ℕ) =>
      g.pix (clampIdx g.h ((i : ℤ) + (di : ℤ) - 12))
            (clampIdx g.w ((j : ℤ) + (dj : ℤ) - 12)))).sum)).sum

/-- `cv2.adaptiveThreshold(blur, 255, ADAPTIVE_THRESH_MEAN_C,
THRESH_BINARY_INV, 25, 5)` (`pdf_parser.py` lines 135-142): a pixel
becomes 0 when it exceeds its local mean minus 5, else 255. -/
def adaptiveThresholdInv (g : GrayImg) : GrayImg :=
  { h := g.h, w := g.w
    pix := fun i j =>
      let mean := (boxSum25 g i j + 312) / 625
      if ((mean : ℤ) - 5 < (g.pix i j : ℤ)) then 0 else 255 }

/-- The in-range positions of the 5×5 window centred at `(i, j)`. -/
def neighborhood5 (gh gw : ℕ) (i j : ℕ) : List (ℕ × ℕ) :=
  ((List.range 5).map (fun (di : ℕ) =>
    (List.range 5).filterMap (fun (dj : ℕ) =>
      let a := (i : ℤ) + (di : ℤ) - 2
      let b := (j : ℤ) + (dj : ℤ) - 2
      if 0 ≤ a ∧ a < (gh : ℤ) ∧ 0 ≤ b ∧ b < (gw : ℤ) then
        some (a.toNat, b.toNat)
      else none))).flatten

/-- `cv2.dilate` with a 5×5 all-ones element: neighbourhood maximum
(out-of-range neighbours are ignored, OpenCV's `-inf` padding). -/
def dilate5 (g : GrayImg) : GrayImg :=
  { h := g.h, w := g.w
    pix := fun i j =>
      ((neighborhood5 g.h g.w i j).map (fun p => g.pix p.1 p.2)).foldl max 0 }

/-- `cv2.erode` with a 5×5 all-ones element: neighbourhood minimum
(out-of-range neighbours are ignored, OpenCV's `+inf` padding). -/
def erode5 (g : GrayImg) : GrayImg :=
  { h := g.h, w := g.w
    pix := fun i j =>
      ((neighborhood5 g.h g.w i j).map (fun p => g.pix p.1 p.2)).foldl min 255 }

/-- `cv2.morphologyEx(thresh, MORPH_CLOSE, kernel, iterations=2)`
(`pdf_parser.py` lines 143-144): two dilations followed by two
erosions. -/
def morphClose2 (g : GrayImg) : GrayImg :=
  erode5 (erode5 (dilate5 (dilate5 g)))

/-- Foreground (non-zero) pixels of a binary image, in row-major order,
as `(x, y)` points. -/
def foregroundPts (g : GrayImg) : List (ℕ × ℕ) :=
  ((List.range g.h).map (fun i =>
    (List.range g.w).filterMap (fun j =>
      if g.pix i j ≠ 0 then some (j, i) else none))).flatten

/-- 8-connectivity between two points (a point is adjacent to itself;
this is harmless for component grouping). -/
def adjacent8 (p q : ℕ × ℕ) : Bool :=
  (p.1 ≤ q.1 + 1 && q.1 ≤ p.1 + 1) && (p.2 ≤ q.2 + 1 && q.2 ≤ p.2 + 1)

/-- Insert a point into a list of components, merging the components it
touches. -/
def addPoint (comps : List (List (ℕ × ℕ))) (p : ℕ × ℕ) :
    List (List (ℕ × ℕ)) :=
  let touching := comps.filter (fun comp => comp.any (adjacent8 p))
  let rest := comps.filter (fun comp => !comp.any (adjacent8 p))
  (p :: touching.flatten) :: rest

/-- Connected components of a point set. -/
def components (pts : List (ℕ × ℕ)) : List (List (ℕ × ℕ)) :=
  pts.foldl addPoint []

/-- `cv2.findContours(closed, RETR_EXTERNAL, CHAIN_APPROX_SIMPLE)`
(`pdf_parser.py` lines 146-148), modelled as the 8-connected
components of the foreground: the bounding rectangle of a component
equals that of its outer contour, which is all `detect_rooms` uses. -/
def findContours (g : GrayImg) : List Contour :=
  components (foregroundPts g)

/-- The exception kinds raised by the engine module: `FileNotFoundError`
from `_ensure_path`, `ValueError` for an empty document
(`render_pdf_to_image`), and `ValueError` for a bad buffer shape
(`detect_rooms`). -/
inductive Err where
  | fileNotFound
  | pageAbsent
  | invalidImage
deriving DecidableEq, Repr

/-- The comparator induced by `key=flooring_sqft, reverse=True`. -/
def descLE (a b : RoomEstimate) : Bool :=
  decide (b.flooring_sqft ≤ a.flooring_sqft)

/-- Descending stable sort by `flooring_sqft`
(`estimates.sort(key=..., reverse=True)`, `pdf_parser.py` line 170;
Python's list sort is stable, as is `mergeSort`). -/
def sortEstimates (l : List RoomEstimate) : List RoomEstimate :=
  l.mergeSort descLE

/-- The contour pipeline of `detect_rooms` (`pdf_parser.py` lines
128-149): grayscale, blur, adaptive threshold, closing, external
contours, then `_filter_contours` with the image width and height. -/
def pipelineContours (a : Arr) : List Contour :=
  let gray := grayOfArr a
  let blur := gaussianBlur5 gray
  let thresh := adaptiveThresholdInv blur
  let closed := morphClose2 thresh
  let contours := findContours closed
  filter_contours contours (dim a 1) (dim a 0)

/-- `detect_rooms` (`pdf_parser.py` lines 117-171), threading the
caller's buffer through unchanged: every OpenCV call allocates a fresh
output and the function never writes into `rgba`, so the first
component — the buffer as the caller sees it after the call — is the
input buffer. -/
def detectRun (a : Arr) : Arr × Except Err (List RoomEstimate) :=
  if ValidShape a then
    (a, Except.ok (sortEstimates
      ((pipelineContours a).map (fun c => mkEstimate (boundingRect c)))))
  else
    (a, Except.error Err.invalidImage)

/-- The value returned (or exception raised) by `detect_rooms`. -/
def detect_rooms (a : Arr) : Except Err (List RoomEstimate) :=
  (detectRun a).2

/-- A PyMuPDF pixmap: width, height, channel count `n`, row stride and
flat samples. -/
structure Pixmap where
  width : ℕ
  height : ℕ
  n : ℕ
  stride : ℕ
  samples : ℕ → ℕ

/-- A rendered PDF document: a page count and the pixmap obtained by
rendering page 0 at zoom 2. -/
structure PdfDocument where
  pageCount : ℕ
  firstPagePixmap : Pixmap

/-- The filesystem as seen through `Path.exists` and `fitz.open`. -/
structure FileSystem where
  files : String → Option PdfDocument

/-- The Qt image returned by `render_pdf_to_image`: constructed with
the pixmap's width and height (`pdf_parser.py` lines 61-67). -/
structure QImg where
  width : ℕ
  height : ℕ
deriving DecidableEq, Repr

/-- Lines 70-73: reinterpret the samples as `(height, stride)`, slice
each row to `width * n` bytes, and reshape to `(height, width, n)`. -/
def baseArr (pm : Pixmap) : Arr :=
  { shape := [pm.height, pm.width, pm.n]
    data := fun t =>
      pm.samples ((t / (pm.width * pm.n)) * pm.stride + t % (pm.width * pm.n)) }

/-- Line 76: `np.repeat(array, 3, axis=2)` on an `(h, w, 1)` array. -/
def repeat3 (a : Arr) : Arr :=
  { shape := [dim a 0, dim a 1, 3], data := fun t => a.data (t / 3) }

/-- Lines 78-82: append a constant 255 alpha channel to an `(h, w, 3)`
array. -/
def appendAlpha (a : Arr) : Arr :=
  { shape := [dim a 0, dim a 1, 4]
    data := fun t => if t % 4 < 3 then a.data ((t / 4) * 3 + t % 4) else 255 }

/-- Lines 69-82: the numpy array built from the pixmap, normalized to
four channels. -/
def arrOfPixmap (pm : Pixmap) : Arr :=
  let array := baseArr pm
  let array := if pm.n = 1 then repeat3 array else array
  if array.shape.getD 2 0 = 3 then appendAlpha array else array

/-- `render_pdf_to_image` (`pdf_parser.py` lines 42-84): path check,
empty-document check, then the Qt image and the numpy array. -/
def render_pdf_to_image (fs : FileSystem) (p : String) :
    Except Err (QImg × Arr) :=
  match fs.files p with
  | none => Except.error Err.fileNotFound
  | some doc =>
    if doc.pageCount = 0 then Except.error Err.pageAbsent
    else
      Except.ok (⟨doc.firstPagePixmap.width, doc.firstPagePixmap.height⟩,
        arrOfPixmap doc.firstPagePixmap)

/-- The totals dictionary built by `parse_pdf`. -/
structure Totals where
  flooring_sqft : ℚ
  drywall_sqft : ℚ
  studs : ℤ
deriving DecidableEq, Repr

/-- The totals computation of `parse_pdf` (`pdf_parser.py` lines
180-184): summed area fields rounded to 2 decimals, integer stud sum. -/
def aggregate (rooms : List RoomEstimate) : Totals :=
  { flooring_sqft := round2 (rooms.map (fun r => r.flooring_sqft)).sum
    drywall_sqft := round2 (rooms.map (fun r => r.drywall_sqft)).sum
    studs := (rooms.map (fun r => r.studs)).sum }

/-- Element-wise sum of two totals. -/
def addTotals (t u : Totals) : Totals :=
  { flooring_sqft := t.flooring_sqft + u.flooring_sqft
    drywall_sqft := t.drywall_sqft + u.drywall_sqft
    studs := t.studs + u.studs }

/-- The summary dictionary returned by `parse_pdf`. -/
structure Summary where
  page_number : ℕ
  image_size : List ℕ
  room_count : ℕ
  totals : Totals
deriving DecidableEq, Repr

/-- `parse_pdf` (`pdf_parser.py` lines 174-191): render, detect,
aggregate.  Exceptions from either stage propagate. -/
def parse_pdf (fs : FileSystem) (p : String) : Except Err Summary :=
  match render_pdf_to_image fs p with
  | Except.error e => Except.error e
  | Except.ok (image, array) =>
    match detect_rooms array with
    | Except.error e => Except.error e
    | Except.ok rooms =>
      Except.ok
        { page_number := 1
          image_size := [image.width, image.height]
          room_count := rooms.length
          totals := aggregate rooms }

/-- The state of the UI after `_handle_select_pdf` processes a
detection outcome (`app.py` lines 99-110): whether a warning dialog was
shown, one overlay rectangle per estimate, one table row per
estimate. -/
structure UIState where
  overlays : List (ℕ × ℕ × ℕ × ℕ)
  tableRows : ℕ
  warned : Bool
deriving DecidableEq, Repr

/-- The `try/except` around `detect_rooms` in `_handle_select_pdf`:
a raised exception is reported and replaced by the empty list. -/
def handleDetectOutcome (r : Except Err (List RoomEstimate)) :
    Bool × List RoomEstimate :=
  match r with
  | Except.ok ests => (false, ests)
  | Except.error _ => (true, [])

/-- `_handle_select_pdf` after rendering succeeded (`app.py` lines
99-110 followed by `_draw_room_overlays` and `_populate_table`). -/
def handleSelectPdf (r : Except Err (List RoomEstimate)) : UIState :=
  let warned := (handleDetectOutcome r).1
  let ests := (handleDetectOutcome r).2
  { overlays := ests.map (fun e => e.rect)
    tableRows := ests.length
    warned := warned }

/-- An image is all-background (zero) on its domain. -/
def BZero (g : GrayImg) : Prop := ∀ i < g.h, ∀ j < g.w, g.pix i j = 0

/-- A successful detection outcome is sorted by `flooring_sqft`
descending; a raised exception imposes nothing. -/
def SortedOutcome : Except Err (List RoomEstimate) → Prop
  | Except.ok l => l.Pairwise (fun a b => b.flooring_sqft ≤ a.flooring_sqft)
  | Except.error _ => True

/-- A 1×1 RGBA buffer of the single colour `(120, 120, 120, 255)`. -/
def constArr4 : Arr := ⟨[1, 1, 4], fun t => if t % 4 = 3 then 255 else 120⟩

/-- The colour vector of `constArr4`. -/
def constCol : ℕ → ℕ := fun k => if k = 3 then 255 else 120

/-! ## Theorems -/

/-- Claim C9: `detect_rooms` never mutates the input pixel buffer:
the buffer state threaded through the call equals the input buffer. -/
theorem claim_C9 : ∀ a : Arr, (detectRun a).1 = a := by
  intro a
  unfold detectRun
  split <;> rfl

/-- Claim C8: an exception raised by the detection pipeline is caught at
the orchestration boundary: the user is warned and the UI proceeds with
an empty estimate list (no overlays, no table rows), while a successful
outcome is displayed as-is without a warning. -/
theorem claim_C8 :
    (∀ e : Err, handleSelectPdf (Except.error e) =
      { overlays := [], tableRows := 0, warned := true })
    ∧ (∀ l : List RoomEstimate, handleSelectPdf (Except.ok l) =
      { overlays := l.map (fun e => e.rect), tableRows := l.length,
        warned := false }) :=
  ⟨fun _ => rfl, fun _ => rfl⟩

/-- Claim C7: `parse_pdf` fails with the file-not-found kind when the
path does not resolve to a file — for every possible document store,
hence before any rendering — and with the page-absent kind when the
document exists but has zero pages, for every pixmap content, hence
before any detection. -/
theorem claim_C7 :
    (∀ (fs : FileSystem) (p : String), fs.files p = none →
      parse_pdf fs p = Except.error Err.fileNotFound)
    ∧ (∀ (fs : FileSystem) (p : String) (doc : PdfDocument),
      fs.files p = some doc → doc.pageCount = 0 →
      parse_pdf fs p = Except.error Err.pageAbsent) := by
  constructor
  · intro fs p h
    unfold parse_pdf render_pdf_to_image
    rw [h]
  · intro fs p doc h h0
    unfold parse_pdf render_pdf_to_image
    rw [h]
    simp [h0]

theorem claim_C7_witness :
    parse_pdf ⟨fun _ => none⟩ "missing.pdf" = Except.error Err.fileNotFound
    ∧ parse_pdf ⟨fun _ => some ⟨0, ⟨1, 1, 4, 4, fun _ => 0⟩⟩⟩ "empty.pdf"
        = Except.error Err.pageAbsent :=
  ⟨claim_C7.1 _ _ rfl, claim_C7.2 _ _ _ rfl rfl⟩

/-- Claim C6: `detect_rooms` raises the invalid-image failure exactly
when the buffer is not a 3-dimensional array whose last dimension is 3
or 4; on every buffer of valid shape the shape check passes. -/
theorem claim_C6 : ∀ a : Arr,
    detect_rooms a = Except.error Err.invalidImage ↔
      ¬(a.shape.length = 3 ∧ (a.shape.getD 2 0 = 3 ∨ a.shape.getD 2 0 = 4)) := by
  intro a
  unfold detect_rooms detectRun
  by_cases h : ValidShape a
  · rw [if_pos h]
    exact iff_of_false (by simp) (not_not.mpr h)
  · rw [if_neg h]
    exact iff_of_true rfl h

/-- Claim C1: every estimate built from a bounding box surviving the
filter follows the fixed pixel-to-feet conversion `0.1`, wall height
`8.0` and stud spacing `16/12`: flooring is the converted area rounded
to 2 decimals, drywall is the converted perimeter times the wall height
rounded to 2 decimals, and the stud count is the perimeter divided by
the spacing, rounded up, with minimum 1. -/
theorem claim_C1 : ∀ (cs : List Contour) (W H : ℕ) (c : Contour),
    c ∈ filter_contours cs W H →
    (mkEstimate (boundingRect c)).flooring_sqft
        = round2 ((((boundingRect c).2.2.1 : ℚ) * (1/10))
            * (((boundingRect c).2.2.2 : ℚ) * (1/10)))
    ∧ (mkEstimate (boundingRect c)).drywall_sqft
        = round2 (2 * (((boundingRect c).2.2.1 : ℚ) * (1/10)
            + ((boundingRect c).2.2.2 : ℚ) * (1/10)) * (8 : ℚ))
    ∧ (mkEstimate (boundingRect c)).studs
        = max 1 ⌈2 * (((boundingRect c).2.2.1 : ℚ) * (1/10)
            + ((boundingRect c).2.2.2 : ℚ) * (1/10)) / ((16 : ℚ)/12)⌉
    ∧ 1 ≤ (mkEstimate (boundingRect c)).studs := by
  intro cs W H c _
  exact ⟨rfl, rfl, rfl, le_max_left _ _⟩

theorem claim_C1_witness :
    [(0,0),(99,49)] ∈ filter_contours [[(0,0),(99,49)]] 1000 1000
    ∧ 1 ≤ (mkEstimate (boundingRect [(0,0),(99,49)])).studs := by
  have hbr : boundingRect [(0,0),(99,49)] = (0, 0, 100, 50) := by decide
  have hk : keep_contour 1000 1000 [(0,0),(99,49)] = true := by
    simp only [keep_contour, hbr, Bool.and_eq_true, Bool.not_eq_true',
      decide_eq_false_iff_not, not_lt, not_and, not_le]
    norm_num
  have hmem : [(0,0),(99,49)] ∈ filter_contours [[(0,0),(99,49)]] 1000 1000 :=
    List.mem_filter.mpr ⟨List.mem_singleton_self _, hk⟩
  exact ⟨hmem, (claim_C1 [[(0,0),(99,49)]] 1000 1000 _ hmem).2.2.2⟩

/-- Claim C2: the filter keeps exactly the contours whose bounding box
area reaches `max(0.0005·W·H, 2000)` and which do not cover 95% of both
image dimensions; in particular a box covering 96% of both dimensions
is discarded. -/
theorem claim_C2 :
    (∀ (cs : List Contour) (W H : ℕ) (c : Contour),
      c ∈ filter_contours cs W H ↔
        c ∈ cs
        ∧ ((boundingRect c).2.2.1 : ℚ) * ((boundingRect c).2.2.2 : ℚ)
            ≥ max ((1/2000) * (W : ℚ) * (H : ℚ)) 2000
        ∧ ¬(((boundingRect c).2.2.1 : ℚ) ≥ (19/20) * (W : ℚ)
            ∧ ((boundingRect c).2.2.2 : ℚ) ≥ (19/20) * (H : ℚ)))
    ∧ filter_contours [[(0,0),(959,959)]] 1000 1000 = [] := by
  constructor
  · intro cs W H c
    rw [filter_contours, List.mem_filter]
    refine and_congr_right fun _ => ?_
    simp only [keep_contour, Bool.and_eq_true, Bool.not_eq_true',
      decide_eq_false_iff_not, not_lt, ge_iff_le]
    have e1 : (W : ℚ) * (H : ℚ) * (1/2000) = (1/2000) * (W : ℚ) * (H : ℚ) := by
      ring
    have e2 : (W : ℚ) * (19/20) = (19/20) * (W : ℚ) := by ring
    have e3 : (H : ℚ) * (19/20) = (19/20) * (H : ℚ) := by ring
    rw [e1, e2, e3]
  · have hbr : boundingRect [(0,0),(959,959)] = (0, 0, 960, 960) := by decide
    have hk : keep_contour 1000 1000 [(0,0),(959,959)] = false := by
      simp only [keep_contour, hbr, Bool.and_eq_false_iff, Bool.not_eq_false',
        decide_eq_true_eq]
      norm_num
    unfold filter_contours
    rw [List.filter_cons, hk]
    simp

/-! Rounding lemmas used for the aggregation claim. -/

lemma rhe_intCast (n : ℤ) : rhe (n : ℚ) = n := by
  unfold rhe
  rw [Int.floor_intCast]
  norm_num

lemma twoDecimal_round2 (q : ℚ) : TwoDecimal (round2 q) :=
  ⟨rhe (q * 100), rfl⟩

lemma round2_of_twoDecimal {q : ℚ} (h : TwoDecimal q) : round2 q = q := by
  obtain ⟨n, rfl⟩ := h
  unfold round2
  rw [div_mul_cancel₀ _ (by norm_num : (100 : ℚ) ≠ 0), rhe_intCast]

lemma twoDecimal_zero : TwoDecimal 0 := ⟨0, by norm_num⟩

lemma twoDecimal_add {a b : ℚ} (ha : TwoDecimal a) (hb : TwoDecimal b) :
    TwoDecimal (a + b) := by
  obtain ⟨m, rfl⟩ := ha
  obtain ⟨n, rfl⟩ := hb
  exact ⟨m + n, by push_cast; ring⟩

lemma twoDecimal_sum : ∀ l : List ℚ, (∀ x ∈ l, TwoDecimal x) →
    TwoDecimal l.sum := by
  intro l
  induction l with
  | nil => intro; simpa using twoDecimal_zero
  | cons x t ih =>
    intro h
    rw [List.sum_cons]
    exact twoDecimal_add (h x (List.mem_cons_self x t))
      (ih fun y hy => h y (List.mem_cons_of_mem x hy))

/-- Claim C4: aggregation is a pure element-wise sum with 2-decimal
rounding on the area fields and an integer sum of studs; over estimates
whose area fields carry at most two decimals — which every estimate the
detector constructs does, third conjunct — it is a homomorphism for
list concatenation, and the empty list yields all-zero totals. -/
theorem claim_C4 :
    (∀ A B : List RoomEstimate,
        (∀ e ∈ A, TwoDecimal e.flooring_sqft ∧ TwoDecimal e.drywall_sqft) →
        (∀ e ∈ B, TwoDecimal e.flooring_sqft ∧ TwoDecimal e.drywall_sqft) →
        aggregate (A ++ B) = addTotals (aggregate A) (aggregate B))
    ∧ aggregate [] = { flooring_sqft := 0, drywall_sqft := 0, studs := 0 }
    ∧ ∀ b : ℕ × ℕ × ℕ × ℕ,
        TwoDecimal (mkEstimate b).flooring_sqft
        ∧ TwoDecimal (mkEstimate b).drywall_sqft := by
  refine ⟨?_, ?_, fun b => ⟨twoDecimal_round2 _, twoDecimal_round2 _⟩⟩
  · intro A B hA hB
    have hfA : TwoDecimal (A.map (fun r => r.flooring_sqft)).sum :=
      twoDecimal_sum _ (by
        intro x hx
        rw [List.mem_map] at hx
        obtain ⟨e, he, rfl⟩ := hx
        exact (hA e he).1)
    have hdA : TwoDecimal (A.map (fun r => r.drywall_sqft)).sum :=
      twoDecimal_sum _ (by
        intro x hx
        rw [List.mem_map] at hx
        obtain ⟨e, he, rfl⟩ := hx
        exact (hA e he).2)
    have hfB : TwoDecimal (B.map (fun r => r.flooring_sqft)).sum :=
      twoDecimal_sum _ (by
        intro x hx
        rw [List.mem_map] at hx
        obtain ⟨e, he, rfl⟩ := hx
        exact (hB e he).1)
    have hdB : TwoDecimal (B.map (fun r => r.drywall_sqft)).sum :=
      twoDecimal_sum _ (by
        intro x hx
        rw [List.mem_map] at hx
        obtain ⟨e, he, rfl⟩ := hx
        exact (hB e he).2)
    unfold aggregate addTotals
    simp only [List.map_append, List.sum_append, Totals.mk.injEq]
    refine ⟨?_, ?_, trivial⟩
    · rw [round2_of_twoDecimal (twoDecimal_add hfA hfB),
        round2_of_twoDecimal hfA, round2_of_twoDecimal hfB]
    · rw [round2_of_twoDecimal (twoDecimal_add hdA hdB),
        round2_of_twoDecimal hdA, round2_of_twoDecimal hdB]
  · unfold aggregate
    simp only [List.map_nil, List.sum_nil]
    rw [round2_of_twoDecimal twoDecimal_zero]

theorem claim_C4_witness :
    aggregate ([mkEstimate (0, 0, 10, 10)] ++ [mkEstimate (0, 0, 3, 7)])
      = addTotals (aggregate [mkEstimate (0, 0, 10, 10)])
          (aggregate [mkEstimate (0, 0, 3, 7)]) := by
  refine claim_C4.1 _ _ ?_ ?_ <;>
    · intro e he
      rw [List.mem_singleton] at he
      subst he
      exact claim_C4.2.2 _

/-! Sorting lemmas. -/

lemma descLE_trans : ∀ a b c : RoomEstimate,
    descLE a b → descLE b c → descLE a c := by
  intro a b c hab hbc
  simp only [descLE, decide_eq_true_eq] at hab hbc ⊢
  exact le_trans hbc hab

lemma descLE_total : ∀ a b : RoomEstimate, descLE a b || descLE b a := by
  intro a b
  simp only [descLE, Bool.or_eq_true, decide_eq_true_eq]
  exact le_total _ _

lemma sortEstimates_pairwise (l : List RoomEstimate) :
    (sortEstimates l).Pairwise
      (fun a b => b.flooring_sqft ≤ a.flooring_sqft) := by
  have h := List.sorted_mergeSort descLE_trans descLE_total l
  exact h.imp (by
    intro a b hab
    simpa [descLE] using hab)

lemma sortEstimates_filter_key (l : List RoomEstimate) (q : ℚ) :
    (sortEstimates l).filter (fun e => decide (e.flooring_sqft = q))
      = l.filter (fun e => decide (e.flooring_sqft = q)) := by
  set p : RoomEstimate → Bool := fun e => decide (e.flooring_sqft = q) with hp
  have hpair : (l.filter p).Pairwise (fun a b => descLE a b = true) := by
    apply List.pairwise_of_forall_mem_list
    intro a ha b hb
    have ha' : p a = true := List.of_mem_filter ha
    have hb' : p b = true := List.of_mem_filter hb
    rw [hp] at ha' hb'
    simp only [decide_eq_true_eq] at ha' hb'
    simp only [descLE, decide_eq_true_eq, ha', hb', le_refl]
  have hself : (l.filter p).filter p = l.filter p :=
    List.filter_eq_self.mpr fun a ha => List.of_mem_filter ha
  have hsub : List.Sublist (l.filter p) (sortEstimates l) :=
    List.sublist_mergeSort descLE_trans descLE_total hpair (List.filter_sublist l)
  have hsub2 : List.Sublist (l.filter p) ((sortEstimates l).filter p) := by
    have h := hsub.filter p
    rwa [hself] at h
  have hperm : List.Perm ((sortEstimates l).filter p) (l.filter p) :=
    (List.mergeSort_perm l descLE).filter p
  exact (hsub2.eq_of_length hperm.length_eq.symm).symm

/-- Claim C3: the sort applied by `detect_rooms` yields a list that is
non-increasing in `flooring_sqft`, and it is stable: the subsequence of
estimates with any given `flooring_sqft` value equals that subsequence
of the discovery-order input.  Every successful `detect_rooms` outcome
is sorted this way. -/
theorem claim_C3 :
    (∀ l : List RoomEstimate,
      (sortEstimates l).Pairwise (fun a b => b.flooring_sqft ≤ a.flooring_sqft)
      ∧ ∀ q : ℚ,
        (sortEstimates l).filter (fun e => decide (e.flooring_sqft = q))
          = l.filter (fun e => decide (e.flooring_sqft = q)))
    ∧ ∀ a : Arr, SortedOutcome (detect_rooms a) := by
  refine ⟨fun l => ⟨sortEstimates_pairwise l, sortEstimates_filter_key l⟩, ?_⟩
  intro a
  unfold detect_rooms detectRun
  by_cases h : ValidShape a
  · rw [if_pos h]
    exact sortEstimates_pairwise _
  · rw [if_neg h]
    trivial

/-! Channel-normalization lemmas for the rendering path. -/

lemma arrOfPixmap_dims (pm : Pixmap) :
    (arrOfPixmap pm).shape.getD 0 0 = pm.height
    ∧ (arrOfPixmap pm).shape.getD 1 0 = pm.width := by
  unfold arrOfPixmap
  by_cases h1 : pm.n = 1 <;>
    simp only [h1, if_true, if_false, reduceIte] <;>
    · split <;> exact ⟨rfl, rfl⟩

lemma pixAt_eq (a : Arr) (i j k : ℕ) :
    pixAt a i j k = a.data (i * (dim a 1 * dim a 2) + j * dim a 2 + k) := rfl

lemma appendAlpha_data (a : Arr) (t : ℕ) :
    (appendAlpha a).data t
      = if t % 4 < 3 then a.data ((t / 4) * 3 + t % 4) else 255 := rfl

lemma repeat3_data (a : Arr) (t : ℕ) :
    (repeat3 a).data t = a.data (t / 3) := rfl

lemma baseArr_data (pm : Pixmap) (t : ℕ) :
    (baseArr pm).data t
      = pm.samples ((t / (pm.width * pm.n)) * pm.stride
          + t % (pm.width * pm.n)) := rfl

/-- Claim C10: `render_pdf_to_image` always produces a 4-channel array:
a 1-channel pixmap is replicated into three channels (then given alpha),
a 1- or 3-channel pixmap receives an opaque 255 alpha channel, and the
array dimensions agree with the returned `QImage`'s height and width. -/
theorem claim_C10 : ∀ pm : Pixmap, pm.n = 1 ∨ pm.n = 3 ∨ pm.n = 4 →
    (arrOfPixmap pm).shape = [pm.height, pm.width, 4]
    ∧ (pm.n = 1 → ∀ i j k, j < pm.width → k < 3 →
        pixAt (arrOfPixmap pm) i j k = pm.samples (i * pm.stride + j))
    ∧ (pm.n = 1 ∨ pm.n = 3 → ∀ i j,
        pixAt (arrOfPixmap pm) i j 3 = 255)
    ∧ (∀ (fs : FileSystem) (p : String) (img : QImg) (arr : Arr),
        render_pdf_to_image fs p = Except.ok (img, arr) →
        arr.shape.getD 0 0 = img.height ∧ arr.shape.getD 1 0 = img.width) := by
  intro pm hn
  refine ⟨?_, ?_, ?_, ?_⟩
  · rcases hn with h | h | h <;>
      simp [arrOfPixmap, baseArr, repeat3, appendAlpha, dim, h]
  · intro h1 i j k hj hk
    have hW : 0 < pm.width := by omega
    have harr : arrOfPixmap pm = appendAlpha (repeat3 (baseArr pm)) := by
      simp [arrOfPixmap, baseArr, repeat3, dim, h1]
    have hd1 : dim (appendAlpha (repeat3 (baseArr pm))) 1 = pm.width := rfl
    have hd2 : dim (appendAlpha (repeat3 (baseArr pm))) 2 = 4 := rfl
    rw [harr, pixAt_eq, hd1, hd2, appendAlpha_data]
    have e0 : i * (pm.width * 4) + j * 4 + k
        = 4 * (i * pm.width + j) + k := by ring
    rw [e0]
    rw [if_pos (by omega : (4 * (i * pm.width + j) + k) % 4 < 3)]
    have harg : (4 * (i * pm.width + j) + k) / 4 * 3
        + (4 * (i * pm.width + j) + k) % 4
        = 3 * (i * pm.width + j) + k := by omega
    rw [harg, repeat3_data]
    have hdiv3 : (3 * (i * pm.width + j) + k) / 3 = i * pm.width + j := by
      omega
    rw [hdiv3, baseArr_data, h1, Nat.mul_one]
    have hdm : (i * pm.width + j) / pm.width = i := by
      rw [Nat.mul_comm i pm.width, Nat.mul_add_div hW,
        Nat.div_eq_of_lt hj, Nat.add_zero]
    have hmm : (i * pm.width + j) % pm.width = j := by
      rw [Nat.mul_comm i pm.width, Nat.mul_add_mod, Nat.mod_eq_of_lt hj]
    rw [hdm, hmm]
  · intro h13 i j
    have halpha : ∀ A : Arr, pixAt (appendAlpha A) i j 3 = 255 := by
      intro A
      have hd2 : dim (appendAlpha A) 2 = 4 := rfl
      have hd1 : dim (appendAlpha A) 1 = dim A 1 := rfl
      rw [pixAt_eq, hd1, hd2, appendAlpha_data]
      have e : i * (dim A 1 * 4) + j * 4 + 3
          = 4 * (i * dim A 1 + j) + 3 := by ring
      rw [e]
      rw [if_neg (by omega : ¬((4 * (i * dim A 1 + j) + 3) % 4 < 3))]
    rcases h13 with h | h
    · have harr : arrOfPixmap pm = appendAlpha (repeat3 (baseArr pm)) := by
        simp [arrOfPixmap, baseArr, repeat3, dim, h]
      rw [harr]
      exact halpha _
    · have harr : arrOfPixmap pm = appendAlpha (baseArr pm) := by
        simp [arrOfPixmap, baseArr, dim, h]
      rw [harr]
      exact halpha _
  · intro fs p img arr h
    unfold render_pdf_to_image at h
    cases hf : fs.files p with
    | none => rw [hf] at h; cases h
    | some doc =>
      rw [hf] at h
      dsimp only at h
      by_cases h0 : doc.pageCount = 0
      · rw [if_pos h0] at h; cases h
      · rw [if_neg h0] at h
        injection h with hpair
        have himg : img
            = ⟨doc.firstPagePixmap.width, doc.firstPagePixmap.height⟩ :=
          (congrArg Prod.fst hpair).symm
        have harr : arr = arrOfPixmap doc.firstPagePixmap :=
          (congrArg Prod.snd hpair).symm
        rw [himg, harr]
        exact ⟨(arrOfPixmap_dims _).1, (arrOfPixmap_dims _).2⟩

theorem claim_C10_witness :
    (arrOfPixmap ⟨2, 2, 3, 6, fun t => t⟩).shape = [2, 2, 4]
    ∧ pixAt (arrOfPixmap ⟨2, 2, 3, 6, fun t => t⟩) 1 1 3 = 255 :=
  ⟨(claim_C10 ⟨2, 2, 3, 6, fun t => t⟩ (Or.inr (Or.inl rfl))).1,
   (claim_C10 ⟨2, 2, 3, 6, fun t => t⟩ (Or.inr (Or.inl rfl))).2.2.1
     (Or.inr rfl) 1 1⟩

/-! Constant-image lemmas for the solid-colour claim. -/

lemma clampIdx_lt {n : ℕ} (hn : 0 < n) (t : ℤ) : clampIdx n t < n := by
  unfold clampIdx
  omega

lemma borderReflect_lt {n : ℕ} (hn : 0 < n) (t : ℤ) : borderReflect n t < n :=
  clampIdx_lt hn _

lemma sum_map_const {α : Type} (l : List α) (c : ℕ) :
    (l.map (fun _ => c)).sum = l.length * c := by
  induction l with
  | nil => simp
  | cons x t ih =>
    simp only [List.map_cons, List.sum_cons, List.length_cons, ih]
    ring

lemma convSum5_const {g : GrayImg} {c : ℕ}
    (hc : ∀ i < g.h, ∀ j < g.w, g.pix i j = c)
    (hh : 0 < g.h) (hw : 0 < g.w) (i j : ℕ) : convSum5 g i j = 256 * c := by
  have hp : ∀ s t : ℤ,
      g.pix (borderReflect g.h s) (borderReflect g.w t) = c :=
    fun s t => hc _ (borderReflect_lt hh s) _ (borderReflect_lt hw t)
  unfold convSum5
  simp only [hp]
  have hin : ∀ a : ℕ,
      ((List.range 5).map (fun dj => a * kcoef dj * c)).sum = a * c * 16 := by
    intro a
    have h5 : List.range 5 = [0, 1, 2, 3, 4] := by decide
    rw [h5]
    simp only [List.map_cons, List.map_nil, List.sum_cons, List.sum_nil,
      kcoef]
    ring
  simp only [hin]
  have h5 : List.range 5 = [0, 1, 2, 3, 4] := by decide
  rw [h5]
  simp only [List.map_cons, List.map_nil, List.sum_cons, List.sum_nil, kcoef]
  ring

lemma blur_const {g : GrayImg} {c : ℕ}
    (hc : ∀ i < g.h, ∀ j < g.w, g.pix i j = c) :
    ∀ i < (gaussianBlur5 g).h, ∀ j < (gaussianBlur5 g).w,
      (gaussianBlur5 g).pix i j = c := by
  intro i hi j hj
  simp only [gaussianBlur5] at hi hj ⊢
  have hh : 0 < g.h := by omega
  have hw : 0 < g.w := by omega
  rw [convSum5_const hc hh hw i j]
  omega

lemma boxSum25_const {g : GrayImg} {c : ℕ}
    (hc : ∀ i < g.h, ∀ j < g.w, g.pix i j = c)
    (hh : 0 < g.h) (hw : 0 < g.w) (i j : ℕ) : boxSum25 g i j = 625 * c := by
  have hp : ∀ s t : ℤ, g.pix (clampIdx g.h s) (clampIdx g.w t) = c :=
    fun s t => hc _ (clampIdx_lt hh s) _ (clampIdx_lt hw t)
  unfold boxSum25
  simp only [hp]
  have hinner : ((List.range 25).map (fun _ : ℕ => c)).sum = 25 * c := by
    rw [sum_map_const, List.length_range]
  simp only [hinner]
  have houter : ((List.range 25).map (fun _ : ℕ => 25 * c)).sum
      = 25 * (25 * c) := by
    rw [sum_map_const, List.length_range]
  simp only [houter]
  ring

lemma thresh_bzero {g : GrayImg} {c : ℕ}
    (hc : ∀ i < g.h, ∀ j < g.w, g.pix i j = c) :
    BZero (adaptiveThresholdInv g) := by
  intro i hi j hj
  simp only [adaptiveThresholdInv] at hi hj ⊢
  have hh : 0 < g.h := by omega
  have hw : 0 < g.w := by omega
  rw [boxSum25_const hc hh hw i j]
  have hm : (625 * c + 312) / 625 = c := by omega
  rw [hm, hc i hi j hj]
  rw [if_pos (by omega : ((c : ℤ) - 5 < (c : ℤ)))]

lemma neighborhood5_mem_bounds {gh gw i j : ℕ} {p : ℕ × ℕ}
    (hp : p ∈ neighborhood5 gh gw i j) : p.1 < gh ∧ p.2 < gw := by
  unfold neighborhood5 at hp
  rw [List.mem_flatten] at hp
  obtain ⟨l, hl, hpl⟩ := hp
  rw [List.mem_map] at hl
  obtain ⟨di, _, rfl⟩ := hl
  rw [List.mem_filterMap] at hpl
  obtain ⟨dj, _, hdj⟩ := hpl
  dsimp only at hdj
  split at hdj
  · rename_i hcond
    cases hdj
    constructor <;> [skip; skip] <;> simp only [] <;> omega
  · cases hdj

lemma self_mem_neighborhood5 {gh gw i j : ℕ} (hi : i < gh) (hj : j < gw) :
    (i, j) ∈ neighborhood5 gh gw i j := by
  unfold neighborhood5
  rw [List.mem_flatten]
  refine ⟨_, List.mem_map.mpr ⟨2, by decide, rfl⟩, ?_⟩
  rw [List.mem_filterMap]
  refine ⟨2, by decide, ?_⟩
  dsimp only
  rw [if_pos ⟨by omega, by omega, by omega, by omega⟩]
  simp only [Option.some.injEq, Prod.mk.injEq]
  constructor <;> omega

lemma foldl_max_zero : ∀ l : List ℕ, (∀ x ∈ l, x = 0) → l.foldl max 0 = 0 := by
  intro l
  induction l with
  | nil => intro; rfl
  | cons x t ih =>
    intro h
    rw [List.foldl_cons, h x (List.mem_cons_self x t), Nat.max_self]
    exact ih fun y hy => h y (List.mem_cons_of_mem x hy)

lemma foldl_min_zero : ∀ l : List ℕ, l.foldl min 0 = 0 := by
  intro l
  induction l with
  | nil => rfl
  | cons x t ih =>
    rw [List.foldl_cons, Nat.zero_min]
    exact ih

lemma foldl_min_mem_zero (l : List ℕ) (acc : ℕ)
    (h : ∀ x ∈ l, x = 0) (h0 : (0 : ℕ) ∈ l) : l.foldl min acc = 0 := by
  cases l with
  | nil => cases h0
  | cons x t =>
    rw [List.foldl_cons, h x (List.mem_cons_self x t), Nat.min_zero]
    exact foldl_min_zero t

lemma dilate5_bzero {g : GrayImg} (hz : BZero g) : BZero (dilate5 g) := by
  intro i hi j hj
  simp only [dilate5] at hi hj ⊢
  apply foldl_max_zero
  intro x hx
  rw [List.mem_map] at hx
  obtain ⟨p, hp, rfl⟩ := hx
  obtain ⟨h1, h2⟩ := neighborhood5_mem_bounds hp
  exact hz _ h1 _ h2

lemma erode5_bzero {g : GrayImg} (hz : BZero g) : BZero (erode5 g) := by
  intro i hi j hj
  simp only [erode5] at hi hj ⊢
  apply foldl_min_mem_zero
  · intro x hx
    rw [List.mem_map] at hx
    obtain ⟨p, hp, rfl⟩ := hx
    obtain ⟨h1, h2⟩ := neighborhood5_mem_bounds hp
    exact hz _ h1 _ h2
  · exact List.mem_map.mpr ⟨(i, j), self_mem_neighborhood5 hi hj, hz i hi j hj⟩

lemma morphClose2_bzero {g : GrayImg} (hz : BZero g) :
    BZero (morphClose2 g) :=
  erode5_bzero (erode5_bzero (dilate5_bzero (dilate5_bzero hz)))

lemma foregroundPts_nil {g : GrayImg} (hz : BZero g) : foregroundPts g = [] := by
  unfold foregroundPts
  rw [List.flatten_eq_nil_iff]
  intro l hl
  rw [List.mem_map] at hl
  obtain ⟨i, hi, rfl⟩ := hl
  rw [List.mem_range] at hi
  rw [List.filterMap_eq_nil_iff]
  intro j hj
  rw [List.mem_range] at hj
  simp [hz i hi j hj]

lemma gray_const {a : Arr} {col : ℕ → ℕ}
    (hc : ∀ i < dim a 0, ∀ j < dim a 1, ∀ k < dim a 2, pixAt a i j k = col k)
    (hch : 3 ≤ dim a 2) :
    ∀ i < (grayOfArr a).h, ∀ j < (grayOfArr a).w,
      (grayOfArr a).pix i j
        = (4899 * col 0 + 9617 * col 1 + 1868 * col 2 + 8192) / 16384 := by
  intro i hi j hj
  simp only [grayOfArr] at hi hj ⊢
  rw [hc i hi j hj 0 (by omega), hc i hi j hj 1 (by omega),
    hc i hi j hj 2 (by omega)]

lemma pipeline_nil_of_const {a : Arr} {col : ℕ → ℕ}
    (hv : ValidShape a)
    (hc : ∀ i < dim a 0, ∀ j < dim a 1, ∀ k < dim a 2, pixAt a i j k = col k) :
    pipelineContours a = [] := by
  have hch : 3 ≤ dim a 2 := by
    unfold dim
    rcases hv.2 with h | h <;> omega
  have hg := gray_const hc hch
  have hb := blur_const hg
  have ht : BZero (adaptiveThresholdInv (gaussianBlur5 (grayOfArr a))) :=
    thresh_bzero hb
  have hcl := morphClose2_bzero ht
  simp only [pipelineContours, findContours, foregroundPts_nil hcl]
  rfl

/-- Claim C5: on a buffer of valid shape all of whose pixels carry one
identical colour, `detect_rooms` returns the empty list; more
generally, whenever no contour survives the filter, `detect_rooms`
returns the empty list rather than raising. -/
theorem claim_C5 :
    (∀ (a : Arr) (col : ℕ → ℕ), ValidShape a →
      (∀ i < dim a 0, ∀ j < dim a 1, ∀ k < dim a 2, pixAt a i j k = col k) →
      detect_rooms a = Except.ok [])
    ∧ (∀ a : Arr, ValidShape a → pipelineContours a = [] →
      detect_rooms a = Except.ok []) := by
  have key : ∀ a : Arr, ValidShape a → pipelineContours a = [] →
      detect_rooms a = Except.ok [] := by
    intro a hv hnil
    unfold detect_rooms detectRun
    rw [if_pos hv]
    show Except.ok _ = _
    rw [hnil]
    simp [sortEstimates]
  exact ⟨fun a col hv hc => key a hv (pipeline_nil_of_const hv hc), key⟩

theorem claim_C5_witness :
    ValidShape constArr4
    ∧ detect_rooms constArr4 = Except.ok []
    ∧ detect_rooms constArr4 = Except.ok [] := by
  have hv : ValidShape constArr4 := by decide
  have hc : ∀ i < dim constArr4 0, ∀ j < dim constArr4 1,
      ∀ k < dim constArr4 2, pixAt constArr4 i j k = constCol k := by decide
  exact ⟨hv, claim_C5.1 constArr4 constCol hv hc,
    claim_C5.2 constArr4 hv (pipeline_nil_of_const hv hc)⟩

end BuildPlan
